import Mathlib

/-!
Verification development for the retrieval-and-ranking core of the
ai-ceo-brain repository.  The Python modules `meeting_indexer.py`,
`semantic_search.py`, `embed_and_store.py` and `answer_with_rag.py` are
shallowly embedded below: pure functions become Lean functions over explicit
inputs, CPython string/regex/date semantics are translated operation by
operation, floats used only for ordering are represented by `Int`, and the
external embedding provider / FAISS index are passed in as explicit data.
-/

/-! ## Python string primitives -/

/-- Python `str.isspace` character class (`\s` of the `re` module, ASCII range,
which is all that occurs in the corpus texts). -/
def pyIsSpace (c : Char) : Bool :=
  c == ' ' || c == '\t' || c == '\n' || c == '\r' || c == Char.ofNat 11 || c == Char.ofNat 12

def isDigitCh (c : Char) : Bool := '0' ≤ c && c ≤ '9'

def isUpperAZ (c : Char) : Bool := 'A' ≤ c && c ≤ 'Z'

def isLowerAZ (c : Char) : Bool := 'a' ≤ c && c ≤ 'z'

/-- `re` word character `\w` (ASCII part: letters, digits, underscore). -/
def isWordCh (c : Char) : Bool :=
  isUpperAZ c || isLowerAZ c || isDigitCh c || c == '_'

/-- ASCII lowercase of one character, as in Python `str.lower` on ASCII text. -/
def lowerCh (c : Char) : Char :=
  if isUpperAZ c then Char.ofNat (c.toNat + 32) else c

def lowerChars (cs : List Char) : List Char := cs.map lowerCh

def pyLower (s : String) : String := ⟨lowerChars s.data⟩

/-- Case-insensitive character equality (ASCII), as under `re.I`. -/
def chEqCi (a b : Char) : Bool := lowerCh a == lowerCh b

/-- Case-insensitive literal match; returns the rest of the input. -/
def matchCi : List Char → List Char → Option (List Char)
  | [], cs => some cs
  | _ :: _, [] => none
  | p :: ps, c :: cs => if chEqCi p c then matchCi ps cs else none

/-- Python `str.strip()` on a char list. -/
def stripChars (cs : List Char) : List Char :=
  ((cs.dropWhile pyIsSpace).reverse.dropWhile pyIsSpace).reverse

/-- Python `str.rstrip()` on a char list. -/
def rstripChars (cs : List Char) : List Char :=
  (cs.reverse.dropWhile pyIsSpace).reverse

/-- `meeting_indexer._strip`: `(s or "").strip()`. -/
def pyStrip (s : String) : String := ⟨stripChars s.data⟩

/-- Core of `meeting_indexer._norm_space`: `re.sub(r"[ \t]+", " ", s)` collapses
every run of spaces/tabs to one space (`afterSp` marks being inside a run). -/
def collapseSpacesGo (afterSp : Bool) : List Char → List Char
  | [] => []
  | c :: cs =>
    if c == ' ' || c == '\t' then
      if afterSp then collapseSpacesGo true cs else ' ' :: collapseSpacesGo true cs
    else c :: collapseSpacesGo false cs

def collapseSpaces (cs : List Char) : List Char := collapseSpacesGo false cs

/-- `meeting_indexer._norm_space`. -/
def norm_space (s : String) : String := ⟨stripChars (collapseSpaces s.data)⟩

/-- Python `str.splitlines()` for `\n`-separated text (the only line
terminator occurring here): splits at every `\n`, no empty final line. -/
def splitNlChars : List Char → List (List Char)
  | [] => [[]]
  | '\n' :: rest => [] :: (if rest.isEmpty then [] else splitNlChars rest)
  | c :: rest =>
    match splitNlChars rest with
    | [] => [[c]]
    | l :: ls => (c :: l) :: ls

def pySplitlines (s : String) : List (List Char) :=
  if s.data.isEmpty then [] else splitNlChars s.data

/-- Python `str.replace(old, new)`: left-to-right, non-overlapping. -/
def replaceChars (old new : List Char) : Nat → List Char → List Char
  | _, [] => []
  | 0, cs => cs
  | fuel + 1, c :: cs =>
    if old.isPrefixOf (c :: cs) then new ++ replaceChars old new fuel ((c :: cs).drop old.length)
    else c :: replaceChars old new fuel cs

def pyReplace (s old new : String) : String :=
  if old.data.isEmpty then s else ⟨replaceChars old.data new.data s.data.length s.data⟩

/-- Python `needle in haystack` substring test. -/
def containsSub (needle : List Char) : List Char → Bool
  | [] => needle.isPrefixOf []
  | c :: cs => needle.isPrefixOf (c :: cs) || containsSub needle cs

/-! ## Python string/tuple ordering (code-point lexicographic) -/

/-- Strict lexicographic order on char lists by code point — Python `<` on `str`. -/
def charsLt : List Char → List Char → Bool
  | [], [] => false
  | [], _ :: _ => true
  | _ :: _, [] => false
  | a :: as', b :: bs =>
    if a.toNat < b.toNat then true
    else if b.toNat < a.toNat then false
    else charsLt as' bs

def strLtB (s t : String) : Bool := charsLt s.data t.data

def strLeB (s t : String) : Bool := !(strLtB t s)

/-- Python `<` on pairs of strings (tuple comparison is lexicographic). -/
def pairLtB (a b : String × String) : Bool :=
  if strLtB a.1 b.1 then true
  else if strLtB b.1 a.1 then false
  else strLtB a.2 b.2

def pairLeB (a b : String × String) : Bool := !(pairLtB b a)

theorem charsLt_irrefl (a : List Char) : charsLt a a = false := by
  induction a with
  | nil => rfl
  | cons c cs ih => simp [charsLt, ih]

theorem charsLt_trans {a b c : List Char} (h₁ : charsLt a b = true)
    (h₂ : charsLt b c = true) : charsLt a c = true := by
  induction a generalizing b c with
  | nil =>
    cases b with
    | nil => simp [charsLt] at h₁
    | cons y ys =>
      cases c with
      | nil => simp [charsLt] at h₂
      | cons z zs => rfl
  | cons x xs ih =>
    cases b with
    | nil => simp [charsLt] at h₁
    | cons y ys =>
      cases c with
      | nil => simp [charsLt] at h₂
      | cons z zs =>
        simp only [charsLt] at h₁ h₂ ⊢
        rcases Nat.lt_trichotomy x.toNat y.toNat with hxy | hxy | hxy <;>
          rcases Nat.lt_trichotomy y.toNat z.toNat with hyz | hyz | hyz
        · simp [Nat.lt_trans hxy hyz]
        · simp [hyz ▸ hxy]
        · simp only [if_neg (Nat.lt_asymm hyz), if_pos hyz, Bool.false_eq_true] at h₂
        · simp [hxy ▸ hyz]
        · have h3 : x.toNat = z.toNat := hxy.trans hyz
          simp only [if_neg (by omega : ¬ x.toNat < y.toNat),
            if_neg (by omega : ¬ y.toNat < x.toNat)] at h₁
          simp only [if_neg (by omega : ¬ y.toNat < z.toNat),
            if_neg (by omega : ¬ z.toNat < y.toNat)] at h₂
          simp only [if_neg (by omega : ¬ x.toNat < z.toNat),
            if_neg (by omega : ¬ z.toNat < x.toNat)]
          exact ih h₁ h₂
        · simp only [if_neg (Nat.lt_asymm hyz), if_pos hyz, Bool.false_eq_true] at h₂
        · simp only [if_neg (Nat.lt_asymm hxy), if_pos hxy, Bool.false_eq_true] at h₁
        · simp only [if_neg (Nat.lt_asymm hxy), if_pos hxy, Bool.false_eq_true] at h₁
        · simp only [if_neg (Nat.lt_asymm hxy), if_pos hxy, Bool.false_eq_true] at h₁

theorem charsLt_conn {a b : List Char} (h₁ : charsLt a b = false)
    (h₂ : charsLt b a = false) : a = b := by
  induction a generalizing b with
  | nil =>
    cases b with
    | nil => rfl
    | cons y ys => simp [charsLt] at h₁
  | cons x xs ih =>
    cases b with
    | nil => simp [charsLt] at h₂
    | cons y ys =>
      simp only [charsLt] at h₁ h₂
      rcases Nat.lt_trichotomy x.toNat y.toNat with hxy | hxy | hxy
      · simp [hxy] at h₁
      · have hx : x = y := by
          rw [← Char.ofNat_toNat x, ← Char.ofNat_toNat y, hxy]
        subst hx
        simp only [Nat.lt_irrefl, if_neg, if_false] at h₁ h₂
        rw [ih h₁ h₂]
      · simp [hxy, Nat.lt_asymm hxy] at h₂

/-- Helper: string equality from character-data equality. -/
theorem strOfData {s t : String} (h : s.data = t.data) : s = t := by
  cases s; cases t; exact congrArg String.mk h

theorem pairLt_irrefl (a : String × String) : pairLtB a a = false := by
  simp [pairLtB, strLtB, charsLt_irrefl]

theorem pairLt_trans {a b c : String × String} (h₁ : pairLtB a b = true)
    (h₂ : pairLtB b c = true) : pairLtB a c = true := by
  simp only [pairLtB, strLtB] at h₁ h₂ ⊢
  by_cases hab : charsLt a.1.data b.1.data = true
  · by_cases hbc : charsLt b.1.data c.1.data = true
    · simp [charsLt_trans hab hbc]
    · by_cases hcb : charsLt c.1.data b.1.data = true
      · simp [hbc, hcb] at h₂
      · have hb : b.1 = c.1 :=
          strOfData (charsLt_conn (Bool.not_eq_true _ ▸ hbc) (Bool.not_eq_true _ ▸ hcb))
        simp [hb ▸ hab]
  · by_cases hba : charsLt b.1.data a.1.data = true
    · simp [hab, hba] at h₁
    · have ha : a.1 = b.1 :=
        strOfData (charsLt_conn (Bool.not_eq_true _ ▸ hab) (Bool.not_eq_true _ ▸ hba))
      by_cases hbc : charsLt b.1.data c.1.data = true
      · simp [ha, hbc]
      · by_cases hcb : charsLt c.1.data b.1.data = true
        · simp [hbc, hcb] at h₂
        · have hb : b.1 = c.1 :=
            strOfData (charsLt_conn (Bool.not_eq_true _ ▸ hbc) (Bool.not_eq_true _ ▸ hcb))
        -- all first components equal: the second components decide
          simp only [hab, hba, if_false, Bool.false_eq_true] at h₁
          simp only [hbc, hcb, if_false, Bool.false_eq_true] at h₂
          simp only [ha, hb, charsLt_irrefl, Bool.false_eq_true, if_false]
          exact charsLt_trans h₁ h₂

theorem pairLt_conn {a b : String × String} (h₁ : pairLtB a b = false)
    (h₂ : pairLtB b a = false) : a = b := by
  simp only [pairLtB, strLtB] at h₁ h₂
  by_cases hab : charsLt a.1.data b.1.data = true
  · simp [hab] at h₁
  · by_cases hba : charsLt b.1.data a.1.data = true
    · simp [hba] at h₂
    · have hfst : a.1 = b.1 :=
        strOfData (charsLt_conn (Bool.not_eq_true _ ▸ hab) (Bool.not_eq_true _ ▸ hba))
      simp only [hab, hba, if_false, Bool.false_eq_true] at h₁ h₂
      have hsnd : a.2 = b.2 := strOfData (charsLt_conn h₁ h₂)
      exact Prod.ext hfst hsnd

theorem pairLt_asymm {a b : String × String} (h : pairLtB a b = true) :
    pairLtB b a = false := by
  cases hx : pairLtB b a
  · rfl
  · exact absurd (pairLt_trans h hx) (by simp [pairLt_irrefl])

theorem pairLe_total (a b : String × String) :
    pairLeB a b = true ∨ pairLeB b a = true := by
  simp only [pairLeB, Bool.not_eq_true']
  cases hx : pairLtB b a
  · left; rfl
  · right; exact pairLt_asymm hx

theorem pairLe_trans {a b c : String × String} (h₁ : pairLeB a b = true)
    (h₂ : pairLeB b c = true) : pairLeB a c = true := by
  simp only [pairLeB, Bool.not_eq_true'] at h₁ h₂ ⊢
  rcases Bool.eq_false_or_eq_true (pairLtB c a) with hca | hca
  · exfalso
    rcases Bool.eq_false_or_eq_true (pairLtB b c) with hbc | hbc
    · have := pairLt_trans hbc hca
      rw [h₁] at this
      exact Bool.false_ne_true this
    · have hb : b = c := pairLt_conn hbc h₂
      rw [← hb] at hca
      rw [h₁] at hca
      exact Bool.false_ne_true hca
  · exact hca

/-! ## Python `datetime` model

Dates/times are modelled by explicit fields; `datetime` comparison is
lexicographic on `(year, month, day, hour, minute, second)`. -/

structure PyDateTime where
  year : Nat
  month : Nat
  day : Nat
  hour : Nat := 0
  minute : Nat := 0
  second : Nat := 0
deriving DecidableEq, Repr

def isLeapYear (y : Nat) : Bool := (y % 4 == 0 && y % 100 != 0) || y % 400 == 0

def daysInMonth (y m : Nat) : Nat :=
  match m with
  | 1 => 31 | 2 => if isLeapYear y then 29 else 28
  | 3 => 31 | 4 => 30 | 5 => 31 | 6 => 30 | 7 => 31
  | 8 => 31 | 9 => 30 | 10 => 31 | 11 => 30 | 12 => 31
  | _ => 0

def daysBeforeMonthTbl (m : Nat) : Nat :=
  match m with
  | 1 => 0 | 2 => 31 | 3 => 59 | 4 => 90 | 5 => 120 | 6 => 151
  | 7 => 181 | 8 => 212 | 9 => 243 | 10 => 273 | 11 => 304 | 12 => 334
  | _ => 365

/-- `datetime.date.toordinal`: proleptic-Gregorian day number, day 1 being
0001-01-01 (the time-of-day fields are ignored, as in CPython). -/
def toordinal (dt : PyDateTime) : Nat :=
  let y := dt.year - 1
  (y * 365 + y / 4 - y / 100 + y / 400) +
    (daysBeforeMonthTbl dt.month +
      (if 2 < dt.month && isLeapYear dt.year then 1 else 0)) + dt.day

/-- `datetime.date.weekday` (Monday = 0). -/
def pyWeekday (dt : PyDateTime) : Nat := (toordinal dt + 6) % 7

/-- Strict `datetime` comparison. -/
def dtLtB (a b : PyDateTime) : Bool :=
  if a.year < b.year then true else if b.year < a.year then false
  else if a.month < b.month then true else if b.month < a.month then false
  else if a.day < b.day then true else if b.day < a.day then false
  else if a.hour < b.hour then true else if b.hour < a.hour then false
  else if a.minute < b.minute then true else if b.minute < a.minute then false
  else a.second < b.second

def dtLeB (a b : PyDateTime) : Bool := !(dtLtB b a)

/-- `datetime.replace(hour=…, minute=…, second=…, microsecond=0)`. -/
def dtReplaceTime (dt : PyDateTime) (h mi s : Nat) : PyDateTime :=
  { dt with hour := h, minute := mi, second := s }

/-- One day earlier (as `datetime - timedelta(days=1)`); time of day kept. -/
def dtPrevDay (dt : PyDateTime) : PyDateTime :=
  if 1 < dt.day then { dt with day := dt.day - 1 }
  else if 1 < dt.month then
    { dt with month := dt.month - 1, day := daysInMonth dt.year (dt.month - 1) }
  else { dt with year := dt.year - 1, month := 12, day := 31 }

/-- `datetime - timedelta(days=n)`. -/
def dtSubDays (dt : PyDateTime) : Nat → PyDateTime
  | 0 => dt
  | n + 1 => dtSubDays (dtPrevDay dt) n

/-- Left-pad a decimal representation with zeros. -/
def padZeros (w : Nat) (s : String) : String :=
  ⟨List.replicate (w - s.data.length) '0' ++ s.data⟩

/-- `datetime.strftime("%Y-%m-%d")`. -/
def strftimeYMD (dt : PyDateTime) : String :=
  padZeros 4 (toString dt.year) ++ "-" ++ padZeros 2 (toString dt.month) ++ "-" ++
    padZeros 2 (toString dt.day)

/-! ## `datetime.strptime` model

A format string is a token list: `%B`/`%d`/`%m`/`%Y` directives, literal
characters (matched case-insensitively, as CPython compiles the format with
`re.IGNORECASE`), and whitespace (CPython turns whitespace runs in the format
into `\s+`).  Matching replays the `_strptime` regex including its
alternation order for `%d` (`3[01]|[12]\d|0[1-9]|[1-9]`) and
`%m` (`1[0-2]|0[1-9]|[1-9]`): two digits first, one digit as fallback, with
backtracking through the rest of the format.  `%Y` is exactly four digits. -/

inductive FmtTok where
  | lit (c : Char)
  | ws
  | dirB
  | dird
  | dirm
  | dirY
deriving DecidableEq, Repr

def monthNames : List (Nat × String) :=
  [(1, "january"), (2, "february"), (3, "march"), (4, "april"), (5, "may"),
   (6, "june"), (7, "july"), (8, "august"), (9, "september"), (10, "october"),
   (11, "november"), (12, "december")]

structure StAcc where
  y : Option Nat := none
  m : Option Nat := none
  d : Option Nat := none
deriving DecidableEq, Repr

/-- Take exactly `n` decimal digits. -/
def takeDigits : Nat → List Char → Option (Nat × List Char)
  | 0, cs => some (0, cs)
  | _ + 1, [] => none
  | n + 1, c :: cs =>
    if isDigitCh c then
      (takeDigits n cs).map (fun p => ((c.toNat - 48) * 10 ^ n + p.1, p.2))
    else none

def firstSome : List (Option α) → Option α
  | [] => none
  | some a :: _ => some a
  | none :: rest => firstSome rest

def matchFmt : List FmtTok → List Char → StAcc → Option (StAcc × List Char)
  | [], cs, acc => some (acc, cs)
  | .lit ch :: toks, cs, acc =>
    match cs with
    | c :: rest => if chEqCi ch c then matchFmt toks rest acc else none
    | [] => none
  | .ws :: toks, cs, acc =>
    match cs with
    | c :: rest =>
      if pyIsSpace c then matchFmt toks (rest.dropWhile pyIsSpace) acc else none
    | [] => none
  | .dirB :: toks, cs, acc =>
    match firstSome (monthNames.map fun p => (matchCi p.2.data cs).map (p.1, ·)) with
    | some (mv, rest) => matchFmt toks rest { acc with m := some mv }
    | none => none
  | .dirY :: toks, cs, acc =>
    match takeDigits 4 cs with
    | some (v, rest) => matchFmt toks rest { acc with y := some v }
    | none => none
  | .dirm :: toks, cs, acc =>
    (match takeDigits 2 cs with
     | some (v, rest) =>
       if 1 ≤ v && v ≤ 12 then matchFmt toks rest { acc with m := some v } else none
     | none => none).orElse fun _ =>
      match takeDigits 1 cs with
      | some (v, rest) =>
        if 1 ≤ v && v ≤ 9 then matchFmt toks rest { acc with m := some v } else none
      | none => none
  | .dird :: toks, cs, acc =>
    (match takeDigits 2 cs with
     | some (v, rest) =>
       if 1 ≤ v && v ≤ 31 then matchFmt toks rest { acc with d := some v } else none
     | none => none).orElse fun _ =>
      match takeDigits 1 cs with
      | some (v, rest) =>
        if 1 ≤ v && v ≤ 9 then matchFmt toks rest { acc with d := some v } else none
      | none => none

/-- `datetime.strptime(s, fmt)`: the regex must match from the start, the whole
input must be consumed ("unconverted data remains" otherwise), missing fields
default to 1900-01-01, and `datetime` construction validates the result. -/
def pyStrptime (s : String) (fmt : List FmtTok) : Option PyDateTime :=
  match matchFmt fmt s.data {} with
  | some (acc, []) =>
    let y := acc.y.getD 1900
    let m := acc.m.getD 1
    let d := acc.d.getD 1
    if 1 ≤ y && y ≤ 9999 && 1 ≤ m && m ≤ 12 && 1 ≤ d && d ≤ daysInMonth y m then
      some { year := y, month := m, day := d }
    else none
  | _ => none

/-- `datetime.replace(year=…)` — revalidates the day (e.g. Feb 29). -/
def pyReplaceYear (dt : PyDateTime) (y : Nat) : Option PyDateTime :=
  if 1 ≤ y && y ≤ 9999 && dt.day ≤ daysInMonth y dt.month then
    some { dt with year := y }
  else none

/-- `meeting_indexer.DATE_PATTERNS`, as token lists (in source order). -/
def DATE_PATTERNS : List (List FmtTok) :=
  [ [.dirB, .ws, .dird, .lit ',', .ws, .dirY],     -- "%B %d, %Y"
    [.dirB, .ws, .dird],                           -- "%B %d"
    [.dirY, .lit '-', .dirm, .lit '-', .dird],     -- "%Y-%m-%d"
    [.dird, .lit '-', .dirm, .lit '-', .dirY],     -- "%d-%m-%Y"
    [.dird, .lit '/', .dirm, .lit '/', .dirY],     -- "%d/%m/%Y"
    [.dirm, .lit '/', .dird, .lit '/', .dirY] ]    -- "%m/%d/%Y"

/-- `"%Y" in fmt` for a tokenised format. -/
def fmtHasYear (fmt : List FmtTok) : Bool := fmt.contains .dirY

/-! ## `meeting_indexer.py`: header and section parsing -/

/-- Try `meeting_indexer._parse_time_date`'s regex
`Time\s*&\s*Date\s*:\s*(?P<time>[^–\-|]+?)[–\-]\s*(?P<date>.+)$` (with `re.I`)
at one start position.  After the literal part, the segment before the first
`–`/`-` must be nonempty and `|`-free (the `\s*`/lazy split inside it only
moves whitespace between `\s*` and the capture, which `_norm_space` erases),
and at least one character must follow the dash. -/
def parseTimeDateAt (cs : List Char) : Option (String × String) :=
  match matchCi "time".data cs with
  | none => none
  | some r1 =>
    match (r1.dropWhile pyIsSpace) with
    | '&' :: r2 =>
      match matchCi "date".data (r2.dropWhile pyIsSpace) with
      | none => none
      | some r3 =>
        match (r3.dropWhile pyIsSpace) with
        | ':' :: rest =>
          let seg := rest.takeWhile (fun c => !(c == '–' || c == '-'))
          if seg.length = rest.length then none  -- no dash at all
          else
            let «after» := rest.drop (seg.length + 1)
            if seg.isEmpty || seg.contains '|' || «after».isEmpty then none
            else some (norm_space ⟨seg⟩, norm_space ⟨«after»⟩)
        | _ => none
    | _ => none

/-- `re.search` for the pattern above: leftmost matching start position. -/
def parseTimeDateScan : List Char → Option (String × String)
  | [] => none
  | c :: cs => (parseTimeDateAt (c :: cs)).orElse fun _ => parseTimeDateScan cs

/-- `meeting_indexer._parse_time_date` (returning `none` for `(None, None)`). -/
def parse_time_date (line : String) : Option (String × String) :=
  parseTimeDateScan line.data

/-- Does a line match `^\s*\d+\.\s*{title}\s*$` (title case-insensitive)?  This
is the heading part `^\s*\d+\.\s*{re.escape(title)}\s*\n` of
`meeting_indexer._extract_section` applied to one `\n`-terminated line. -/
def isHeadingLine (title : List Char) (ln : List Char) : Bool :=
  let r1 := ln.dropWhile pyIsSpace
  let digs := r1.takeWhile isDigitCh
  if digs.isEmpty then false
  else
    match r1.drop digs.length with
    | '.' :: r2 =>
      match matchCi title (r2.dropWhile pyIsSpace) with
      | some r4 => (r4.dropWhile pyIsSpace).isEmpty
      | none => false
    | _ => false

/-- The within-line part of the body terminator `(?=^\s*\d+\.\s*\S)`:
`\s*\d+\.` — returns what follows the dot. -/
def termLineCore (ln : List Char) : Option (List Char) :=
  let r1 := ln.dropWhile pyIsSpace
  let digs := r1.takeWhile isDigitCh
  if digs.isEmpty then none
  else
    match r1.drop digs.length with
    | '.' :: r2 => some r2
    | _ => none

/-- Body lines strictly before the first line where the terminator lookahead
`^\s*\d+\.\s*\S` matches; `none` when it never matches (then the whole regex
fails and `_extract_section` yields `""`).  The lookahead's `\s*` may run past
the end of a `\d+\.` line, in which case `\S` must be found on a later line.
(The `\s*` may also start on an earlier blank line; that only trims blank
lines off the body, which the final `strip()` removes anyway.) -/
def takeUntilTerm : List (List Char) → Option (List (List Char))
  | [] => none
  | ln :: rest =>
    let isTerm :=
      match termLineCore ln with
      | some r2 =>
        if (r2.dropWhile pyIsSpace).isEmpty then
          rest.any (fun l => !(l.all pyIsSpace))
        else true
      | none => false
    if isTerm then some []
    else (takeUntilTerm rest).map (ln :: ·)

/-- Lines after the first heading line for `title`.  (If that heading has no
terminator after it, no later heading can have one either, so `re.search`
retrying later start positions cannot succeed — the first heading decides.) -/
def afterHeading (title : List Char) : List (List Char) → Option (List (List Char))
  | [] => none
  | ln :: rest => if isHeadingLine title ln then some rest else afterHeading title rest

/-- `meeting_indexer._extract_section` — note the appended sentinel
`"\n0.\n"`; its `0.` line has nothing after the dot and nothing after it, so
it never satisfies the `\s*\S` part of the terminator. -/
def extract_section (text : String) (title : String) : String :=
  let lines := pySplitlines ⟨text.data ++ ['\n', '0', '.', '\n']⟩
  match afterHeading title.data lines with
  | some rest =>
    match takeUntilTerm rest with
    | some body => pyStrip ⟨(body.map (· ++ ['\n'])).flatten⟩
    | none => ""
  | none => ""

/-- `(?:\.\d+)*`: consume `.digits` groups greedily (each needs ≥ 1 digit);
every iteration consumes ≥ 2 characters, so fuel = input length is exact. -/
def dotDigitStar (fuel : Nat) : List Char → List Char
  | '.' :: r =>
    match fuel with
    | 0 => '.' :: r
    | fuel + 1 =>
      let digs := r.takeWhile isDigitCh
      if digs.isEmpty then '.' :: r else dotDigitStar fuel (r.drop digs.length)
  | cs => cs

/-- `re.match(r"^\s*\d+(?:\.\d+)*\s+", ln)`: the numbered-point prefix;
returns the rest after the trailing whitespace. -/
def pointNumPrefix (ln : List Char) : Option (List Char) :=
  let r1 := ln.dropWhile pyIsSpace
  let digs := r1.takeWhile isDigitCh
  if digs.isEmpty then none
  else
    match dotDigitStar ln.length (r1.drop digs.length) with
    | c :: rest => if pyIsSpace c then some (rest.dropWhile pyIsSpace) else none
    | [] => none

/-- The merge loop of `meeting_indexer._lines_of_points`. -/
def mergePoints : List (List Char) → List Char → List (List Char)
  | [], cur => if cur.isEmpty then [] else [stripChars cur]
  | ln :: rest, cur =>
    if (pointNumPrefix ln).isSome then
      if cur.isEmpty then mergePoints rest ln
      else stripChars cur :: mergePoints rest ln
    else mergePoints rest (cur ++ ' ' :: stripChars ln)

/-- `meeting_indexer._lines_of_points`. -/
def lines_of_points (sectionBody : String) : List String :=
  let lines := (pySplitlines sectionBody).filterMap fun l =>
    if (stripChars l).isEmpty then none else some (rstripChars l)
  (mergePoints lines []).map (⟨·⟩)

/-! ## `meeting_indexer.py`: name extraction -/

/-- `re` class `[\w.'-]` used for name tokens. -/
def isNameCh (c : Char) : Bool :=
  isWordCh c || c == '.' || c == Char.ofNat 39 || c == '-'

/-- Backtracking over `[\w.'-]+`: try consuming `i` characters of the maximal
class run of `cs`, longest first, `i ≥ 1`; `k` is the rest of the regex. -/
def tryNameRun (cs : List Char) (k : List Char → Option α) : Option α :=
  go (cs.takeWhile isNameCh).length
where
  go : Nat → Option α
    | 0 => none
    | i + 1 => (k (cs.drop (i + 1))).orElse fun _ => go i

/-- `[A-Z][\w.'-]+` with continuation `k`. -/
def matchNameTok (cs : List Char) (k : List Char → Option α) : Option α :=
  match cs with
  | c :: rest => if isUpperAZ c then tryNameRun rest k else none
  | [] => none

/-- `\s*(?:,|and|&)\s*` (the alternatives start with distinct characters and
`\s` overlaps none of them, so greedy matching needs no backtracking). -/
def matchSepCAA (cs : List Char) : Option (List Char) :=
  match cs.dropWhile pyIsSpace with
  | ',' :: r2 => some (r2.dropWhile pyIsSpace)
  | '&' :: r2 => some (r2.dropWhile pyIsSpace)
  | 'a' :: 'n' :: 'd' :: r2 => some (r2.dropWhile pyIsSpace)
  | _ => none

/-- Greedy `(?:\s*(?:,|and|&)\s*[A-Z][\w.'-]+)*` followed by `tail`: extend
first, fall back to `tail` — every iteration consumes ≥ 3 characters, so fuel
bounded by the input length is exact. -/
def matchConjStar (fuel : Nat) (cs : List Char) (tail : List Char → Option α) : Option α :=
  match fuel with
  | 0 => tail cs
  | fuel + 1 =>
    (match matchSepCAA cs with
     | some r1 => matchNameTok r1 (fun r2 => matchConjStar fuel r2 tail)
     | none => none).orElse fun _ => tail cs

/-- The `\s*(?:–|-|—)\s*(.+)$` tail of the action regex, invoked at the end of
the names group; records that end position and returns `group(2).strip()`
(the `\s*`/`.+` split inside trailing whitespace only moves whitespace into
the capture, which the `strip()` removes). -/
def actionTail (rest : List Char) : Option (Nat × List Char) :=
  match rest.dropWhile pyIsSpace with
  | c :: r2 =>
    if c == '–' || c == '-' || c == '—' then
      if r2.isEmpty then none else some (rest.length, stripChars r2)
    else none
  | [] => none

/-- The full `re.match` of `meeting_indexer._extract_actions_from_points`:
`^\s*\d+(?:\.\d+)*\s+([A-Z][\w.'-]+(?:\s*(?:,|and|&)\s*[A-Z][\w.'-]+)*)\s*(?:–|-|—)\s*(.+)$`,
returning `(group(1), group(2).strip())`. -/
def matchActionLine (pt : List Char) : Option (String × String) :=
  match pointNumPrefix pt with
  | none => none
  | some r0 =>
    match matchNameTok r0 (fun r1 => matchConjStar r0.length r1 actionTail) with
    | some (restLen, taskChars) =>
      some (⟨r0.take (r0.length - restLen)⟩, ⟨taskChars⟩)
    | none => none

/-- Full match against `^[A-Z][\w.'-]{1,}$`. -/
def nameFullMatch (cs : List Char) : Bool :=
  match cs with
  | c :: rest => isUpperAZ c && !rest.isEmpty && rest.all isNameCh
  | [] => false

/-- `dict.fromkeys`-style dedup: keep first occurrences, in order. -/
def dedupeGo : List String → List String → List String
  | [], _ => []
  | x :: xs, seen => if seen.contains x then dedupeGo xs seen else x :: dedupeGo xs (x :: seen)

/-- One separator of `re.split(r"\s*(?:,|and)\s*", s)` (`&` is gone by now). -/
def sepCommaAnd (cs : List Char) : Option (List Char) :=
  match cs.dropWhile pyIsSpace with
  | ',' :: r2 => some (r2.dropWhile pyIsSpace)
  | 'a' :: 'n' :: 'd' :: r2 => some (r2.dropWhile pyIsSpace)
  | _ => none

/-- `re.split` scan: leftmost non-overlapping separators; every step consumes
at least one character, so fuel = input length is exact. -/
def splitSepGo : Nat → List Char → List Char → List (List Char)
  | _, [], seg => [seg.reverse]
  | 0, cs, seg => [seg.reverse ++ cs]
  | fuel + 1, c :: cs, seg =>
    match sepCommaAnd (c :: cs) with
    | some rest => seg.reverse :: splitSepGo fuel rest []
    | none => splitSepGo fuel cs (c :: seg)

/-- `meeting_indexer._split_names`. -/
def split_names (namesStr : String) : List String :=
  -- re.sub(r"[–\-]+.*$", "", s): drop everything from the first dash on
  let s1 := namesStr.data.takeWhile (fun c => !(c == '–' || c == '-'))
  -- .replace("&", " and ")
  let s2 := replaceChars ['&'] (" and ".data) s1.length s1
  let parts := splitSepGo s2.length s2 []
  dedupeGo (parts.filterMap fun p =>
    let p' := stripChars p
    if nameFullMatch p' then some (⟨p'⟩ : String) else none) []

/-- One raw bullet as produced by `_extract_actions_from_points`. -/
structure RawAction where
  assignees : List String
  task : String
  raw : String
deriving DecidableEq, Repr

/-- `meeting_indexer._extract_actions_from_points`. -/
def extract_actions_from_points (points : List String) : List RawAction :=
  points.map fun pt =>
    match matchActionLine pt.data with
    | some (namesStr, task) =>
      let names := split_names namesStr
      if !names.isEmpty && !task.data.isEmpty then
        { assignees := names, task := task, raw := pt }
      else { assignees := [], task := pt, raw := pt }
    | none => { assignees := [], task := pt, raw := pt }

/-! ## Sorting relations (Python `sorted` is a stable sort; `insertionSort`
with the matching total preorder produces the identical list) -/

theorem strLe_total (a b : String) : strLeB a b = true ∨ strLeB b a = true := by
  simp only [strLeB, strLtB, Bool.not_eq_true']
  cases hx : charsLt b.data a.data
  · left; rfl
  · right
    cases hy : charsLt a.data b.data
    · rfl
    · exact absurd (charsLt_trans hx hy) (by simp [charsLt_irrefl])

theorem strLe_trans {a b c : String} (h₁ : strLeB a b = true)
    (h₂ : strLeB b c = true) : strLeB a c = true := by
  simp only [strLeB, strLtB, Bool.not_eq_true'] at h₁ h₂ ⊢
  rcases Bool.eq_false_or_eq_true (charsLt c.data a.data) with hca | hca
  · exfalso
    rcases Bool.eq_false_or_eq_true (charsLt b.data c.data) with hbc | hbc
    · have := charsLt_trans hbc hca
      rw [h₁] at this
      exact Bool.false_ne_true this
    · have hb : b.data = c.data := charsLt_conn hbc h₂
      rw [← hb] at hca
      rw [h₁] at hca
      exact Bool.false_ne_true hca
  · exact hca

/-- Ascending string order (Python `sorted` on `str`). -/
def strAscRel (a b : String) : Prop := strLeB a b = true

instance : DecidableRel strAscRel :=
  fun a b => inferInstanceAs (Decidable (strLeB a b = true))

instance : IsTotal String strAscRel := ⟨strLe_total⟩

instance : IsTrans String strAscRel := ⟨fun _ _ _ => strLe_trans⟩

/-- Python `sorted` on a list of strings. -/
def sortStringsAsc (l : List String) : List String := List.insertionSort strAscRel l

/-! ## `meeting_indexer.py`: attendee heuristics -/

/-- `re.findall(r"\b([A-Z][a-z]{1,})\b", text)`: capitalised word tokens with
word boundaries (`prev` is the character before the scan position, if any).
If the maximal lowercase run is not followed by a boundary, shorter runs end
at a lowercase letter and fail too, so the scan moves one character on. -/
def findCapsGo : Nat → Option Char → List Char → List String
  | 0, _, _ => []
  | _, _, [] => []
  | fuel + 1, prev, c :: cs =>
    let boundaryOk := match prev with | none => true | some p => !isWordCh p
    if boundaryOk && isUpperAZ c then
      let run := cs.takeWhile isLowerAZ
      if run.isEmpty then findCapsGo fuel (some c) cs
      else
        let «after» := cs.drop run.length
        let endOk := match «after» with | [] => true | a :: _ => !isWordCh a
        if endOk then (⟨c :: run⟩ : String) :: findCapsGo fuel run.getLast? «after»
        else findCapsGo fuel (some c) cs
    else findCapsGo fuel (some c) cs

/-- `meeting_indexer._find_names_anywhere`. -/
def find_names_anywhere (text : String) : List String :=
  let stop : List String := ["AI", "AGI", "OBBA", "SPV", "CEO", "Q3", "HR", "India", "Visa", "Team"]
  sortStringsAsc (dedupeGo ((findCapsGo text.data.length none text.data).filter fun w => !stop.contains w) [])

/-- Length of the maximal names group
`[A-Z][\w.'-]+(?:\s*(?:,|and|&)\s*[A-Z][\w.'-]+)*` starting here (greedy, no
constraint after it). -/
def namesGroupAt (r0 : List Char) : Option Nat :=
  (matchNameTok r0 fun r1 =>
    matchConjStar r0.length r1 fun rest => some rest.length).map (r0.length - ·)

/-- `re.findall(r"\bwith\s+([A-Z][\w.'-]+(?:\s*(?:,|and|&)\s*[A-Z][\w.'-]+)*)", task)`:
non-overlapping left-to-right matches, returning the captured group.  Every
step consumes at least one character, so fuel = input length is exact. -/
def withScanGo : Nat → Option Char → List Char → List String
  | 0, _, _ => []
  | _, _, [] => []
  | fuel + 1, prev, c :: cs =>
    let boundaryOk := match prev with | none => true | some p => !isWordCh p
    let tryHere : Option (String × List Char) :=
      if boundaryOk && "with".data.isPrefixOf (c :: cs) then
        match (c :: cs).drop 4 with
        | d :: r2 =>
          if pyIsSpace d then
            let r0 := r2.dropWhile pyIsSpace
            match namesGroupAt r0 with
            | some glen => some (⟨r0.take glen⟩, r0.drop glen)
            | none => none
          else none
        | [] => none
      else none
    match tryHere with
    | some (grp, rest) => grp :: withScanGo fuel grp.data.getLast? rest
    | none => withScanGo fuel (some c) cs

def withGroupsIn (task : List Char) : List String := withScanGo task.length none task

/-- `([A-Z][\w.'-]+)\b`: the class may also match `.`/`'`/`-`, so the regex
shrinks the greedy run until the trailing word boundary holds. -/
def nameTokWithBoundary (r0 : List Char) : Option (String × List Char) :=
  match r0 with
  | c :: rest =>
    if isUpperAZ c then goRun c rest (rest.takeWhile isNameCh).length else none
  | [] => none
where
  goRun (c : Char) (rest : List Char) : Nat → Option (String × List Char)
    | 0 => none
    | i + 1 =>
      let consumed := rest.take (i + 1)
      let «after» := rest.drop (i + 1)
      let lastOk :=
        match consumed.getLast? with
        | some lc =>
          match «after» with
          | [] => isWordCh lc
          | a :: _ => isWordCh lc != isWordCh a
        | none => false
      if lastOk then some (⟨c :: consumed⟩, «after») else goRun c rest i

/-- `re.findall(rf"\b{pre}\s+([A-Z][\w.'-]+)\b", task)` for a literal `pre`. -/
def preScanGo (pre : List Char) : Nat → Option Char → List Char → List String
  | 0, _, _ => []
  | _, _, [] => []
  | fuel + 1, prev, c :: cs =>
    let boundaryOk := match prev with | none => true | some p => !isWordCh p
    let tryHere : Option (String × List Char) :=
      if boundaryOk && pre.isPrefixOf (c :: cs) then
        match (c :: cs).drop pre.length with
        | d :: r2 =>
          if pyIsSpace d then nameTokWithBoundary (r2.dropWhile pyIsSpace)
          else none
        | [] => none
      else none
    match tryHere with
    | some (tok, rest) => tok :: preScanGo pre fuel tok.data.getLast? rest
    | none => preScanGo pre fuel (some c) cs

def preNamesIn (pre : String) (task : List Char) : List String :=
  preScanGo pre.data task.length none task

/-! ## `meeting_indexer.py`: the meeting record -/

structure NormAction where
  assignee : Option String
  task : String
  raw : String
  sec : String
deriving DecidableEq, Repr

structure MeetingRec where
  file : String
  time : Option String
  date : Option String
  attendees : List String
  actions : List NormAction
deriving DecidableEq, Repr

/-- The header-band loop of `parse_meeting_text`: first of the first ten lines
whose `_parse_time_date` yields a truthy date. -/
def findHeaderTD (lines : List (List Char)) : Option (String × String) :=
  match lines with
  | [] => none
  | ln :: rest =>
    match parseTimeDateScan ln with
    | some (t, d) => if d ≠ "" then some (t, d) else findHeaderTD rest
    | none => findHeaderTD rest

/-- `int(file_date.split("-")[0])`. -/
def yearOfIso (s : String) : Nat :=
  (s.data.takeWhile (· ≠ '-')).foldl (fun a c => a * 10 + (c.toNat - 48)) 0

/-- One iteration of the `for fmt in DATE_PATTERNS: try … except` body:
`strptime` on the `"Sept "`-expanded date string, year borrowed from the
filename date when the format lacks `%Y`, rendered with
`strftime("%Y-%m-%d")`; any failure (including `replace(year=…)`) makes the
attempt fail. -/
def attemptPattern (fmt : List FmtTok) (ds : String) (fileDate : Option String) : Option String :=
  match pyStrptime (pyReplace ds "Sept " "September ") fmt with
  | none => none
  | some dt =>
    match fileDate with
    | some fd =>
      if !fmtHasYear fmt then (pyReplaceYear dt (yearOfIso fd)).map strftimeYMD
      else some (strftimeYMD dt)
    | none => some (strftimeYMD dt)

def tryPatterns : List (List FmtTok) → String → Option String → Option String
  | [], _, _ => none
  | fmt :: rest, ds, fileDate =>
    match attemptPattern fmt ds fileDate with
    | some iso => some iso
    | none => tryPatterns rest ds fileDate

/-- `meeting_indexer._date_from_filename`: `re.search(r"(\d{4}-\d{2}-\d{2})")`. -/
def takeDigitChars : Nat → List Char → Option (List Char × List Char)
  | 0, cs => some ([], cs)
  | _ + 1, [] => none
  | n + 1, c :: cs =>
    if isDigitCh c then (takeDigitChars n cs).map (fun p => (c :: p.1, p.2)) else none

def isoSubAt (cs : List Char) : Option (List Char) :=
  match takeDigitChars 4 cs with
  | some (y, '-' :: r1) =>
    match takeDigitChars 2 r1 with
    | some (mo, '-' :: r2) =>
      match takeDigitChars 2 r2 with
      | some (d, _) => some (y ++ '-' :: mo ++ '-' :: d)
      | none => none
    | _ => none
  | _ => none

def isoSubScan : List Char → Option (List Char)
  | [] => none
  | c :: cs => (isoSubAt (c :: cs)).orElse fun _ => isoSubScan cs

def date_from_filename (name : String) : Option String :=
  (isoSubScan name.data).map (⟨·⟩)

/-- The header-band scan of `parse_meeting_text` (its first ten lines). -/
def headerTimeDate (full_text : String) : Option (String × String) :=
  findHeaderTD ((pySplitlines full_text).take 10)

/-- The date-resolution block of `parse_meeting_text`: the pattern loop over
the header date string, then the
`if not meeting_date_iso and file_date: meeting_date_iso = file_date`
fallback. -/
def meetingDateIso (full_text : String) (filename : String) : Option String :=
  let file_date := date_from_filename filename
  let fromPatterns : Option String :=
    match (headerTimeDate full_text).map (·.2) with
    | none => none
    | some ds => tryPatterns DATE_PATTERNS ds file_date
  match fromPatterns with
  | some s => some s
  | none => file_date

/-- `meeting_indexer.parse_meeting_text`. -/
def parse_meeting_text (full_text : String) (filename : String) : MeetingRec :=
  let time : Option String := (headerTimeDate full_text).map (·.1)
  let meeting_date_iso : Option String := meetingDateIso full_text filename
  let next_steps_body := extract_section full_text "Next Steps"
  let action_items_body := extract_section full_text "Action Items"
  let points := lines_of_points next_steps_body ++ lines_of_points action_items_body
  let rawActions := extract_actions_from_points points
  let attendees := sortStringsAsc (dedupeGo
    ((rawActions.map (·.assignees)).flatten ++
     (rawActions.map fun a =>
       ((withGroupsIn a.task.data).map split_names).flatten).flatten ++
     (rawActions.map fun a =>
       preNamesIn "to" a.task.data ++ preNamesIn "for" a.task.data ++
         preNamesIn "by" a.task.data).flatten ++
     find_names_anywhere full_text) [])
  let normalized := rawActions.map fun a =>
    if a.assignees.isEmpty then
      [({ assignee := none, task := a.task, raw := a.raw, sec := "Next/Action" } : NormAction)]
    else a.assignees.map fun n =>
      ({ assignee := some n, task := a.task, raw := a.raw, sec := "Next/Action" } : NormAction)
  { file := filename, time := time, date := meeting_date_iso,
    attendees := attendees, actions := normalized.flatten }

/-! ## `meeting_indexer.py`: person index and lookup -/

structure TaskRow where
  file : String
  date : Option String
  time : Option String
  task : String
  sec : String
deriving DecidableEq, Repr

/-- `people.setdefault(name, []).append(rec)`: dict insertion order kept. -/
def addPersonRow (ps : List (String × List TaskRow)) (n : String) (r : TaskRow) :
    List (String × List TaskRow) :=
  match ps with
  | [] => [(n, [r])]
  | (m, rs) :: rest =>
    if m = n then (m, rs ++ [r]) :: rest else (m, rs) :: addPersonRow rest n r

/-- The people-index reduction inside `meeting_indexer.build_index` (the file
scanning around it is I/O; the reduction itself is pure). -/
def build_people_index (meetings : List MeetingRec) : List (String × List TaskRow) :=
  meetings.foldl (fun ps mt =>
    mt.actions.foldl (fun ps act =>
      match act.assignee with
      | none => ps
      | some n =>
        if n = "" then ps   -- `if not act["assignee"]: continue` is truthiness
        else addPersonRow ps n
          { file := mt.file, date := mt.date, time := mt.time,
            task := act.task, sec := act.sec }) ps) []

def lookupRows (ps : List (String × List TaskRow)) (name : String) : List TaskRow :=
  match ps.find? (fun p => p.1 == name) with
  | some p => p.2
  | none => []

/-- Row selection of `find_tasks_by_person` before sorting:
`idx["people_index"].get(name, [])`, then the date filter, applied only when
`date` is truthy (non-`None` and nonempty). -/
def selectTaskRows (ps : List (String × List TaskRow)) (name : String)
    (date : Option String) : List TaskRow :=
  let rows := lookupRows ps name
  match date with
  | some d => if d ≠ "" then rows.filter (fun r => r.date == some d) else rows
  | none => rows

/-- `key=lambda r: (r.get("date") or "", r.get("time") or "")`. -/
def taskSortKey (r : TaskRow) : String × String :=
  (r.date.getD "", r.time.getD "")

/-- The descending sort of `rows.sort(key=…, reverse=True)`: `x` stays before
`y` exactly when `key x ≥ key y` (Python's sort is stable, also under
`reverse=True`). -/
def rowDescRel (x y : TaskRow) : Prop := pairLeB (taskSortKey y) (taskSortKey x) = true

instance : DecidableRel rowDescRel :=
  fun x y => inferInstanceAs (Decidable (pairLeB (taskSortKey y) (taskSortKey x) = true))

instance : IsTotal TaskRow rowDescRel :=
  ⟨fun x y => pairLe_total (taskSortKey y) (taskSortKey x)⟩

instance : IsTrans TaskRow rowDescRel :=
  ⟨fun _ _ _ h h' => pairLe_trans h' h⟩

/-- `meeting_indexer.find_tasks_by_person` on a loaded index. -/
def find_tasks_by_person (ps : List (String × List TaskRow)) (name : String)
    (date : Option String) : List TaskRow :=
  List.insertionSort rowDescRel (selectTaskRows ps name date)

/-! ## `semantic_search.py`

Distances enter scoring only through their ordering, so `float` distances are
modelled by `Int`.  The metadata map attaches a Python dict per chunk:
`embed_and_store.main` writes `filename, path, chunk_id, text_preview,
folder, meeting_date`; a dict may also carry other keys, modelled by the
`valid_from`/`valid_to` fields — `rerank` reads only `folder` and
`meeting_date` via `.get`. -/

structure Meta where
  filename : String := ""
  path : String := ""
  chunk_id : Nat := 0
  text_preview : String := ""
  folder : Option String := none
  meeting_date : Option String := none
  valid_from : Option String := none
  valid_to : Option String := none
deriving DecidableEq, Repr

/-- One `(id, distance, metadata)` result tuple. -/
structure SearchHit where
  id : Int
  dist : Int
  meta : Meta
deriving DecidableEq, Repr

/-- `semantic_search._parse_iso`: `strptime(s, "%Y-%m-%d")`, `None` on any
failure or falsy input. -/
def parse_iso (s : Option String) : Option PyDateTime :=
  match s with
  | none => none
  | some t =>
    if t = "" then none
    else pyStrptime t [.dirY, .lit '-', .dirm, .lit '-', .dird]

/-- `1000 if (prefer_meetings and str(meta.get("folder", "")).lower() == "meetings") else 0`. -/
def folderBonus (prefer_meetings : Bool) (m : Meta) : Int :=
  if prefer_meetings && (pyLower (m.folder.getD "") == "meetings") then 1000 else 0

/-- `d.toordinal() if (prefer_recent and d) else 0` with `d = _parse_iso(meta.get("meeting_date"))`. -/
def dateBonus (prefer_recent : Bool) (m : Meta) : Int :=
  if prefer_recent then
    match parse_iso m.meeting_date with
    | some d => (toordinal d : Int)
    | none => 0
  else 0

/-- The `score` closure in `semantic_search.rerank`:
`folder_bonus * 1_000_000 + date_bonus * 10 + base` with `base = -dist`. -/
def score (prefer_meetings prefer_recent : Bool) (h : SearchHit) : Int :=
  folderBonus prefer_meetings h.meta * 1000000 + dateBonus prefer_recent h.meta * 10 + (-h.dist)

/-- `sorted(results, key=…, reverse=True)` keeps `x` before `y` exactly when
`key x ≥ key y` (stable, also under `reverse=True`). -/
def hitDescRel (k : SearchHit → Int) : SearchHit → SearchHit → Prop := fun x y => k y ≤ k x

instance (k : SearchHit → Int) : DecidableRel (hitDescRel k) :=
  fun x y => inferInstanceAs (Decidable (k y ≤ k x))

instance (k : SearchHit → Int) : IsTotal SearchHit (hitDescRel k) :=
  ⟨fun x y => Int.le_total (k y) (k x)⟩

instance (k : SearchHit → Int) : IsTrans SearchHit (hitDescRel k) :=
  ⟨fun _ _ _ h h' => le_trans h' h⟩

/-- `semantic_search.rerank`. -/
def rerank (results : List SearchHit) (prefer_meetings : Bool := false)
    (prefer_recent : Bool := false) : List SearchHit :=
  List.insertionSort (hitDescRel (score prefer_meetings prefer_recent)) results

/-- Ascending-distance order used by the FAISS flat L2 index. -/
def faissEntryRel : (Int × Int) → (Int × Int) → Prop := fun x y => x.2 ≤ y.2

instance : DecidableRel faissEntryRel :=
  fun x y => inferInstanceAs (Decidable (x.2 ≤ y.2))

instance : IsTotal (Int × Int) faissEntryRel := ⟨fun x y => Int.le_total x.2 y.2⟩

instance : IsTrans (Int × Int) faissEntryRel := ⟨fun _ _ _ h h' => le_trans h h'⟩

/-- `faiss.IndexIDMap2(IndexFlatL2(…)).search(qvec, n)`: exactly `n`
`(id, distance)` rows, ascending by distance, padded with id `-1` when the
index holds fewer than `n` vectors.  `entries` is the stored set with each
vector's distance to this query. -/
def faissSearch (entries : List (Int × Int)) (n : Nat) : List (Int × Int) :=
  let sorted := List.insertionSort faissEntryRel entries
  sorted.take n ++ List.replicate (n - sorted.length) (-1, 0)

/-- `metadata.get(int(idx), {})`. -/
def lookupMeta (md : List (Int × Meta)) (i : Int) : Meta :=
  match md.find? (fun p => p.1 == i) with
  | some p => p.2
  | none => {}

/-- `semantic_search.search`: retrieve `max(k, 5)` nearest rows, skip `-1`
ids, attach metadata — there is no truncation to `k`. -/
def search (db : List (Int × Int)) (metadata : List (Int × Meta)) (k : Nat) : List SearchHit :=
  ((faissSearch db (max k 5)).filter fun p => !(p.1 == -1)).map fun p =>
    { id := p.1, dist := p.2, meta := lookupMeta metadata p.1 }

/-- `semantic_search.search_meetings`. -/
def search_meetings (db : List (Int × Int)) (metadata : List (Int × Meta))
    (k : Nat := 5) (prefer_recent : Bool := true) : List SearchHit :=
  (rerank (search db metadata (max k 50)) true prefer_recent).take k

/-- `semantic_search.filter_by_date_range`. -/
def filter_by_date_range (results : List SearchHit) (start «end» : PyDateTime) :
    List SearchHit :=
  results.filter fun h =>
    match parse_iso h.meta.meeting_date with
    | some d => dtLeB start d && dtLeB d «end»
    | none => false

/-- The `key` closure in `semantic_search.rerank_for_recency`:
`(rec * 10) + base` with `rec = d.toordinal() if (favor_recent and d) else 0`. -/
def recKey (favor_recent : Bool) (h : SearchHit) : Int :=
  (if favor_recent then
    match parse_iso h.meta.meeting_date with
    | some d => (toordinal d : Int)
    | none => 0
  else 0) * 10 + (-h.dist)

/-- `semantic_search.rerank_for_recency`. -/
def rerank_for_recency (results : List SearchHit) (favor_recent : Bool := true) :
    List SearchHit :=
  List.insertionSort (hitDescRel (recKey favor_recent)) results

/-- `semantic_search.search_in_date_window`: `pool = search(query, max(k, 200))`,
`windowed = filter_by_date_range(pool, start, end)`, empty if `windowed` is,
else `rerank_for_recency(windowed)[:k]`. -/
def search_in_date_window (db : List (Int × Int)) (metadata : List (Int × Meta))
    (start «end» : PyDateTime) (k : Nat := 5) : List SearchHit :=
  if (filter_by_date_range (search db metadata (max k 200)) start «end»).isEmpty then []
  else (rerank_for_recency (filter_by_date_range (search db metadata (max k 200)) start «end»)).take k

/-! ## `embed_and_store.py` -/

/-- `get_embedding`: up to four attempts (`for attempt in range(4)`); one
attempt's outcome is `emb i` — `none` models an exception or a shape-check
failure; the exponential-backoff sleeps have no logical content.  After four
failures, `None`. -/
def get_embedding (emb : Nat → Option (List Int)) : Option (List Int) :=
  match emb 0 with
  | some v => some v
  | none =>
    match emb 1 with
    | some v => some v
    | none =>
      match emb 2 with
      | some v => some v
      | none =>
        match emb 3 with
        | some v => some v
        | none => none

/-- One chunk of one parsed file, with the per-file attributes `main`
computes before the chunk loop. -/
structure IngestChunk where
  filename : String
  path : String
  chunk_id : Nat
  text : String
  folder : String
  meeting_date : Option String
deriving DecidableEq, Repr

/-- The metadata record `main` stores for a chunk. -/
def chunkMeta (c : IngestChunk) : Meta :=
  { filename := c.filename, path := c.path, chunk_id := c.chunk_id,
    text_preview := ⟨c.text.data.take 1000⟩, folder := some c.folder,
    meeting_date := c.meeting_date }

/-- The module-level `_index`, `_metadata`, `_next_id` of `embed_and_store`. -/
structure IngestState where
  index : List (Int × List Int) := []
  metadata : List (Int × Meta) := []
  next_id : Int := 0
deriving DecidableEq, Repr

/-- The per-chunk body of `main`'s loop: a chunk whose embedding fails is
skipped (only a log line); otherwise the vector is added under `_next_id`,
the metadata record under the same id, and `_next_id` is incremented. -/
def processChunk (emb : IngestChunk → Nat → Option (List Int))
    (st : IngestState) (c : IngestChunk) : IngestState :=
  match get_embedding (emb c) with
  | none => st
  | some v =>
    { index := st.index ++ [(st.next_id, v)],
      metadata := st.metadata ++ [(st.next_id, chunkMeta c)],
      next_id := st.next_id + 1 }

/-- `main`'s chunk iteration from the initial module state. -/
def runIngest (emb : IngestChunk → Nat → Option (List Int))
    (chunks : List IngestChunk) : IngestState :=
  chunks.foldl (processChunk emb) {}

/-! ## `answer_with_rag.py`: date-window resolution -/

def natOfDigits (cs : List Char) : Nat :=
  cs.foldl (fun a c => a * 10 + (c.toNat - 48)) 0

/-- `datetime(y, mo, d)` — the constructor raises `ValueError` on
out-of-range fields (year, then month, then day). -/
def mkDatetimeE (y mo d : Nat) : Except String PyDateTime :=
  if y < 1 || 9999 < y then .error "ValueError: year is out of range"
  else if mo < 1 || 12 < mo then .error "ValueError: month must be in 1..12"
  else if d < 1 || daysInMonth y mo < d then .error "ValueError: day is out of range for month"
  else .ok { year := y, month := mo, day := d }

/-- `re.search(r'(\d{4})-(\d{2})-(\d{2})', s)` at one position. -/
def isoTripleAt (cs : List Char) : Option (Nat × Nat × Nat) :=
  match takeDigitChars 4 cs with
  | some (y, '-' :: r1) =>
    match takeDigitChars 2 r1 with
    | some (mo, '-' :: r2) =>
      match takeDigitChars 2 r2 with
      | some (d, _) => some (natOfDigits y, natOfDigits mo, natOfDigits d)
      | none => none
    | _ => none
  | _ => none

def isoTripleScan : List Char → Option (Nat × Nat × Nat)
  | [] => none
  | c :: cs => (isoTripleAt (c :: cs)).orElse fun _ => isoTripleScan cs

/-- `re.search(rf'{_MONTHS}\s+(\d{{1,2}}),\s*(\d{{4}})', s, re.I)` at one
position (the query is already lowercased), returning the three captured
texts; `\d{1,2}` is greedy with fallback when the `,` does not follow. -/
def textualDateAt (cs : List Char) : Option (String × String × String) :=
  match firstSome (monthNames.map fun p => (matchCi p.2.data cs).map (fun rest => (p.2, rest))) with
  | some (nm, rest) =>
    match rest with
    | c :: r1 =>
      if pyIsSpace c then
        let r2 := r1.dropWhile pyIsSpace
        let withDay : List Char → List Char → Option (String × String × String) :=
          fun dd r3 =>
            match takeDigitChars 4 (r3.dropWhile pyIsSpace) with
            | some (yy, _) => some (nm, ⟨dd⟩, ⟨yy⟩)
            | none => none
        (match takeDigitChars 2 r2 with
         | some (dd, ',' :: r3) => withDay dd r3
         | _ => none).orElse fun _ =>
          match takeDigitChars 1 r2 with
          | some (dd, ',' :: r3) => withDay dd r3
          | _ => none
      else none
    | [] => none
  | none => none

def textualDateScan : List Char → Option (String × String × String)
  | [] => none
  | c :: cs => (textualDateAt (c :: cs)).orElse fun _ => textualDateScan cs

/-- `answer_with_rag.resolve_date_window_from_query`.  `today` stands for
`datetime.now()`.  Unhandled `ValueError`s from `datetime(…)`/`strptime`
surface as `.error` — the function body has no `try`. -/
def resolve_date_window_from_query (today : PyDateTime) (q : String) :
    Except String (Option (PyDateTime × PyDateTime)) :=
  let s := pyLower q
  if containsSub "last week".data s.data then
    -- previous Monday .. previous Sunday
    let wd := pyWeekday today
    let e := dtSubDays today (wd + 1)
    let st := dtSubDays e 6
    .ok (some (dtReplaceTime st 0 0 0, dtReplaceTime e 23 59 59))
  else if containsSub "last month".data s.data then
    let first_this := { today with day := 1 }
    let last_prev := dtSubDays first_this 1
    let first_prev := { last_prev with day := 1 }
    .ok (some (dtReplaceTime first_prev 0 0 0, dtReplaceTime last_prev 23 59 59))
  else
    match isoTripleScan s.data with
    | some (y, mo, d) =>
      match mkDatetimeE y mo d with
      | .ok dt => .ok (some (dtReplaceTime dt 0 0 0, dtReplaceTime dt 23 59 59))
      | .error e => .error e
    | none =>
      match textualDateScan s.data with
      | some (nm, dd, yy) =>
        match pyStrptime (nm ++ " " ++ dd ++ " " ++ yy) [.dirB, .ws, .dird, .ws, .dirY] with
        | some dt => .ok (some (dtReplaceTime dt 0 0 0, dtReplaceTime dt 23 59 59))
        | none => .error "ValueError: time data does not match format or day out of range"
      | none => .ok none

/-! ## Spec-side comparison definitions -/

/-- Modelled from the spec's words ("large negative constant if the chunk
declares a valid-from/valid-to window and the current time falls outside
it"): the chunk declares both bounds as ISO dates and `now` lies outside
`[valid_from, valid_to]`.  Used only to compare the spec's claimed
validity-window behaviour against `rerank`. -/
def specOutOfWindow (now : PyDateTime) (m : Meta) : Bool :=
  match parse_iso m.valid_from, parse_iso m.valid_to with
  | some a, some b => dtLtB now a || dtLtB b now
  | _, _ => false

/-- Modelled from the spec's words ("sorted descending by (date, time) — most
recent first"): chronological minutes-after-midnight of a clock-time string
`H:MM AM`/`H:MM PM`, to compare the code's lexicographic time ordering with
chronological ordering. -/
def specTimeOfDayMinutes (s : String) : Option Nat :=
  let cs := s.data
  let hd := cs.takeWhile isDigitCh
  if hd.isEmpty then none
  else
    match cs.drop hd.length with
    | ':' :: r1 =>
      let md := r1.takeWhile isDigitCh
      if md.length ≠ 2 then none
      else
        match r1.drop 2 with
        | ' ' :: r2 =>
          if r2 = ['A', 'M'] then some ((natOfDigits hd % 12) * 60 + natOfDigits md)
          else if r2 = ['P', 'M'] then some ((natOfDigits hd % 12 + 12) * 60 + natOfDigits md)
          else none
        | _ => none
    | _ => none

/-! ## Sorting lemmas -/

theorem orderedInsert_map {α : Type} (r : α → α → Prop) [DecidableRel r] (f : α → α)
    (hf : ∀ a b, r (f a) (f b) ↔ r a b) (a : α) (l : List α) :
    List.orderedInsert r (f a) (l.map f) = (List.orderedInsert r a l).map f := by
  induction l with
  | nil => rfl
  | cons b bs ih =>
    simp only [List.map_cons, List.orderedInsert]
    by_cases h : r a b
    · rw [if_pos ((hf a b).mpr h), if_pos h, List.map_cons, List.map_cons]
    · rw [if_neg (fun hc => h ((hf a b).mp hc)), if_neg h, List.map_cons, ih]

theorem insertionSort_map {α : Type} (r : α → α → Prop) [DecidableRel r] (f : α → α)
    (hf : ∀ a b, r (f a) (f b) ↔ r a b) (l : List α) :
    List.insertionSort r (l.map f) = (List.insertionSort r l).map f := by
  induction l with
  | nil => rfl
  | cons a as ih =>
    simp only [List.map_cons, List.insertionSort, ih, orderedInsert_map r f hf]

/-! ## Lemmas about `matchFmt`/`pyStrptime` -/

/-- A format without `%Y` never touches the year accumulator. -/
theorem matchFmt_keeps_y : ∀ (fmt : List FmtTok), fmt.contains FmtTok.dirY = false →
    ∀ cs acc acc' rest, matchFmt fmt cs acc = some (acc', rest) → acc'.y = acc.y := by
  intro fmt
  induction fmt with
  | nil =>
    intro _ cs acc acc' rest h
    simp only [matchFmt, Option.some.injEq, Prod.mk.injEq] at h
    rw [← h.1]
  | cons tok toks ih =>
    intro hno cs acc acc' rest h
    have hsplit : (FmtTok.dirY == tok) = false ∧ toks.contains FmtTok.dirY = false := by
      rw [List.contains_cons] at hno
      exact Bool.or_eq_false_iff.mp hno
    have hno' := hsplit.2
    cases tok with
    | lit ch =>
      cases cs with
      | nil => simp [matchFmt] at h
      | cons c cs' =>
        simp only [matchFmt] at h
        by_cases hc : chEqCi ch c = true
        · rw [if_pos hc] at h
          exact ih hno' _ _ _ _ h
        · rw [if_neg hc] at h
          cases h
    | ws =>
      cases cs with
      | nil => simp [matchFmt] at h
      | cons c cs' =>
        simp only [matchFmt] at h
        by_cases hc : pyIsSpace c = true
        · rw [if_pos hc] at h
          exact ih hno' _ _ _ _ h
        · rw [if_neg hc] at h
          cases h
    | dirB =>
      simp only [matchFmt] at h
      split at h
      · have h3 := ih hno' _ _ _ _ h
        exact h3
      · cases h
    | dirY => simp at hsplit
    | dirm =>
      simp only [matchFmt] at h
      rcases h2 : (match takeDigits 2 cs with
        | some (v, rest) =>
          if 1 ≤ v && v ≤ 12 then matchFmt toks rest { acc with m := some v } else none
        | none => none) with _ | val
      · rw [h2] at h
        simp only [Option.orElse, Option.none_orElse] at h
        split at h
        · split at h
          · have h3 := ih hno' _ _ _ _ h
            exact h3
          · cases h
        · cases h
      · rw [h2] at h
        simp only [Option.orElse, Option.some_orElse] at h
        cases h
        split at h2
        · split at h2
          · have h3 := ih hno' _ _ _ _ h2
            exact h3
          · cases h2
        · cases h2
    | dird =>
      simp only [matchFmt] at h
      rcases h2 : (match takeDigits 2 cs with
        | some (v, rest) =>
          if 1 ≤ v && v ≤ 31 then matchFmt toks rest { acc with d := some v } else none
        | none => none) with _ | val
      · rw [h2] at h
        simp only [Option.orElse, Option.none_orElse] at h
        split at h
        · split at h
          · have h3 := ih hno' _ _ _ _ h
            exact h3
          · cases h
        · cases h
      · rw [h2] at h
        simp only [Option.orElse, Option.some_orElse] at h
        cases h
        split at h2
        · split at h2
          · have h3 := ih hno' _ _ _ _ h2
            exact h3
          · cases h2
        · cases h2

/-- `strptime` on a year-less format always yields the default year 1900. -/
theorem pyStrptime_no_year_1900 {s : String} {fmt : List FmtTok} {dt : PyDateTime}
    (hfmt : fmt.contains FmtTok.dirY = false) (h : pyStrptime s fmt = some dt) :
    dt.year = 1900 := by
  unfold pyStrptime at h
  split at h
  · next acc heq =>
    have hy : acc.y = none := matchFmt_keeps_y fmt hfmt _ _ _ _ heq
    simp only [hy, Option.getD_none] at h
    split at h
    · cases h
      rfl
    · cases h
  · cases h

/-- Equality of `Except` results is decidable componentwise. -/
instance {ε α : Type} [DecidableEq ε] [DecidableEq α] : DecidableEq (Except ε α)
  | .error a, .error b =>
    if h : a = b then .isTrue (by rw [h]) else .isFalse (fun hc => h (Except.error.inj hc))
  | .error _, .ok _ => .isFalse (fun hc => Except.noConfusion hc)
  | .ok _, .error _ => .isFalse (fun hc => Except.noConfusion hc)
  | .ok a, .ok b =>
    if h : a = b then .isTrue (by rw [h]) else .isFalse (fun hc => h (Except.ok.inj hc))

/-! ## Claim theorems -/

/-- C10: a header date matching a year-less format (the `"%B %d"` pattern,
after `"%B %d, %Y"` failed), with no `YYYY-MM-DD` date in the filename, still
produces a Meeting Record date — the `strptime` default year 1900 (so e.g.
`"September 02"` resolves to `"1900-09-02"`), rather than leaving it unset. -/
theorem parse_meeting_text_year_defaults_1900
    (full_text filename t ds : String) (dt : PyDateTime)
    (hheader : headerTimeDate full_text = some (t, ds))
    (hfile : date_from_filename filename = none)
    (hp1 : pyStrptime (pyReplace ds "Sept " "September ")
      [FmtTok.dirB, FmtTok.ws, FmtTok.dird, FmtTok.lit ',', FmtTok.ws, FmtTok.dirY] = none)
    (hp2 : pyStrptime (pyReplace ds "Sept " "September ")
      [FmtTok.dirB, FmtTok.ws, FmtTok.dird] = some dt) :
    (parse_meeting_text full_text filename).date = some (strftimeYMD dt) ∧ dt.year = 1900 := by
  constructor
  · show meetingDateIso full_text filename = some (strftimeYMD dt)
    simp only [meetingDateIso, hheader, hfile, Option.map_some', DATE_PATTERNS, tryPatterns,
      attemptPattern, hp1, hp2]
  · exact pyStrptime_no_year_1900 (by decide) hp2

/-- C10 witness: the spec's own example, evaluated concretely. -/
theorem parse_meeting_text_year_defaults_1900_witness :
    (parse_meeting_text "Time & Date: 4:30 AM – September 02\nHello\n"
        "Meeting-Summary.txt").date =
      some (strftimeYMD { year := 1900, month := 9, day := 2 }) ∧
    ({ year := 1900, month := 9, day := 2 } : PyDateTime).year = 1900 :=
  parse_meeting_text_year_defaults_1900 _ _ "4:30 AM" "September 02"
    { year := 1900, month := 9, day := 2 } (by decide) (by decide) (by decide) (by decide)

/-- The spec's C4 scenario file: `2025-09-02_Meeting-Summary.txt` with the
year-less header and the Next Steps point `4.1 Sai – Update onboarding doc`. -/
def c4Text : String :=
  "Time & Date: 4:30 AM – September 02\n4. Next Steps\n4.1 Sai – Update onboarding doc\n"

def c4File : String := "2025-09-02_Meeting-Summary.txt"

/-- C4: the Meeting Record date does resolve to `2025-09-02` (year borrowed
from the filename), but `find_tasks_by_person("Sai", "2025-09-02")` returns
`[]`, not one record: `_extract_section`'s terminator lookahead
`^\s*\d+\.\s*\S` matches the sub-numbered point line `4.1 Sai – …` itself, so
the Next Steps body is empty and no action is ever extracted (the appended
`0.` sentinel also never matches the lookahead, having no `\S` after the
dot).  This contradicts the spec's scenario — a bug in the code. -/
theorem scenario_sai_section_lost_code_bug :
    (parse_meeting_text c4Text c4File).date = some "2025-09-02" ∧
    extract_section c4Text "Next Steps" = "" ∧
    (parse_meeting_text c4Text c4File).actions = [] ∧
    find_tasks_by_person (build_people_index [parse_meeting_text c4Text c4File]) "Sai"
      (some "2025-09-02") = [] := by decide

def c5Today : PyDateTime := { year := 2025, month := 9, day := 15, hour := 10, minute := 30, second := 0 }

/-- C5: resolving a date expression is not error-free for all inputs: a query
containing the ISO-looking `2025-13-45` reaches `datetime(2025, 13, 45)`,
which raises `ValueError` (there is no `try` in
`resolve_date_window_from_query`), while a query with no recognizable date
does degrade to no filter (`None`). -/
theorem resolve_date_window_raises_on_out_of_range :
    resolve_date_window_from_query c5Today "what happened on 2025-13-45" =
      Except.error "ValueError: month must be in 1..12" ∧
    resolve_date_window_from_query c5Today "hello there" = Except.ok none := by decide

/-- C1 counterexample: the empty string is a provided date for which the
filter is skipped (`if date:` is false for `""`), so a record whose date
differs from the provided date is returned. -/
theorem find_tasks_by_person_empty_date_cex :
    find_tasks_by_person
        [("Sai", [{ file := "f.txt", date := some "2025-09-02", time := some "4:30 AM",
                    task := "T", sec := "Next/Action" }])] "Sai" (some "") =
      [{ file := "f.txt", date := some "2025-09-02", time := some "4:30 AM",
         task := "T", sec := "Next/Action" }] ∧
    (some "2025-09-02" : Option String) ≠ some "" := by decide

/-- C1 (amended): for every nonempty provided date string, every returned
record's Meeting Record date equals the given date (records with a differing
or absent date are filtered out). -/
theorem find_tasks_by_person_date_filter (ps : List (String × List TaskRow))
    (name d : String) (hd : d ≠ "") :
    ∀ r ∈ find_tasks_by_person ps name (some d), r.date = some d := by
  intro r hr
  have hr' : r ∈ selectTaskRows ps name (some d) :=
    (List.perm_insertionSort rowDescRel _).subset hr
  have hr'' : r ∈ (lookupRows ps name).filter (fun r => r.date == some d) := by
    simpa [selectTaskRows, hd] using hr'
  have hbeq := (List.mem_filter.mp hr'').2
  simpa using hbeq

/-- C1 witness. -/
theorem find_tasks_by_person_date_filter_witness :
    ("2025-09-02" ≠ "") ∧
    (∀ r ∈ find_tasks_by_person
        [("Sai", [{ file := "f.txt", date := some "2025-09-02", time := some "4:30 AM",
                    task := "T", sec := "Next/Action" },
                  { file := "g.txt", date := some "2025-08-01", time := none,
                    task := "U", sec := "Next/Action" }])] "Sai" (some "2025-09-02"),
      r.date = some "2025-09-02") :=
  ⟨by decide, find_tasks_by_person_date_filter _ _ _ (by decide)⟩

def c8RowA : TaskRow :=
  { file := "f.txt", date := some "2025-09-02", time := some "10:00 AM",
    task := "A", sec := "Next/Action" }

def c8RowB : TaskRow :=
  { file := "f.txt", date := some "2025-09-02", time := some "4:30 AM",
    task := "B", sec := "Next/Action" }

/-- C8 counterexample: two same-day records; chronologically `10:00 AM`
(600 minutes) is later than `4:30 AM` (270 minutes), yet the code orders the
`4:30 AM` record first, because the sort key compares the raw time strings
lexicographically (`"4…" > "1…"`). -/
theorem find_tasks_by_person_time_order_cex :
    find_tasks_by_person [("Sai", [c8RowA, c8RowB])] "Sai" none = [c8RowB, c8RowA] ∧
    c8RowA.date = c8RowB.date ∧
    specTimeOfDayMinutes "10:00 AM" = some 600 ∧
    specTimeOfDayMinutes "4:30 AM" = some 270 := by decide

/-- C8 (amended): `find_tasks_by_person` returns the selected rows sorted in
descending lexicographic order of the string pair
`(date or "", time or "")` — most-recent-date-first for ISO dates, but
within one date the time ordering is string comparison, not chronological. -/
theorem find_tasks_by_person_sorted_desc (ps : List (String × List TaskRow))
    (name : String) (date : Option String) :
    (find_tasks_by_person ps name date).Perm (selectTaskRows ps name date) ∧
    (find_tasks_by_person ps name date).Pairwise
      (fun x y => pairLeB (taskSortKey y) (taskSortKey x) = true) :=
  ⟨List.perm_insertionSort rowDescRel (selectTaskRows ps name date),
   List.sorted_insertionSort rowDescRel (selectTaskRows ps name date)⟩

/-- Replace a hit's validity-window fields. -/
def setValidity (vf vt : Option String) (h : SearchHit) : SearchHit :=
  { h with meta := { h.meta with valid_from := vf, valid_to := vt } }

/-- C2 counterexample: at current time 2025-09-15, the first chunk's window
`[2020-01-01, 2020-12-31]` has expired and the second chunk's window
`[2020-01-01, 2030-12-31]` is current, yet `rerank` puts the out-of-window
chunk first because its raw distance is smaller — there is no
validity-window penalty in the score. -/
theorem rerank_validity_window_cex :
    specOutOfWindow { year := 2025, month := 9, day := 15 }
      { valid_from := some "2020-01-01", valid_to := some "2020-12-31" } = true ∧
    specOutOfWindow { year := 2025, month := 9, day := 15 }
      { valid_from := some "2020-01-01", valid_to := some "2030-12-31" } = false ∧
    rerank [{ id := 0, dist := 1, meta := { valid_from := some "2020-01-01", valid_to := some "2020-12-31" } },
            { id := 1, dist := 2, meta := { valid_from := some "2020-01-01", valid_to := some "2030-12-31" } }] =
      [{ id := 0, dist := 1, meta := { valid_from := some "2020-01-01", valid_to := some "2020-12-31" } },
       { id := 1, dist := 2, meta := { valid_from := some "2020-01-01", valid_to := some "2030-12-31" } }] := by
  decide

/-- C2 (amended): `rerank` ignores validity windows entirely — its score
reads only the folder, the meeting date and the distance, so rewriting every
chunk's `valid_from`/`valid_to` arbitrarily commutes with reranking; in
particular no out-of-window penalty exists and an out-of-window chunk with a
smaller distance ranks above an in-window one. -/
theorem rerank_ignores_validity_window (pm pr : Bool) (vf vt : Option String)
    (l : List SearchHit) :
    rerank (l.map (setValidity vf vt)) pm pr = (rerank l pm pr).map (setValidity vf vt) :=
  insertionSort_map (hitDescRel (score pm pr)) (setValidity vf vt) (fun _ _ => Iff.rfl) l

/-- C3: when every boost term is zero (no folder bonus, no recency bonus for
any item), `rerank` returns a permutation of its input that is sorted in
ascending order of distance — reranking refines pure distance ordering. -/
theorem rerank_zero_boosts_sorted_by_distance (pm pr : Bool) (results : List SearchHit)
    (h : ∀ x ∈ results, folderBonus pm x.meta = 0 ∧ dateBonus pr x.meta = 0) :
    (rerank results pm pr).Perm results ∧
    (rerank results pm pr).Pairwise (fun x y => x.dist ≤ y.dist) := by
  refine ⟨List.perm_insertionSort _ _, ?_⟩
  have hs : (rerank results pm pr).Pairwise (hitDescRel (score pm pr)) :=
    List.sorted_insertionSort _ _
  refine hs.imp_of_mem ?_
  intro a b ha hb hr
  have ha' : a ∈ results :=
    (List.perm_insertionSort (hitDescRel (score pm pr)) results).subset ha
  have hb' : b ∈ results :=
    (List.perm_insertionSort (hitDescRel (score pm pr)) results).subset hb
  obtain ⟨hfa, hda⟩ := h a ha'
  obtain ⟨hfb, hdb⟩ := h b hb'
  simp only [hitDescRel, score, hfa, hfb, hda, hdb, zero_mul, zero_add] at hr
  omega

/-- C3 witness. -/
theorem rerank_zero_boosts_sorted_by_distance_witness :
    ((rerank [({ id := 0, dist := 5, meta := {} } : SearchHit),
              { id := 1, dist := 3, meta := {} }] false false).Perm
        [({ id := 0, dist := 5, meta := {} } : SearchHit), { id := 1, dist := 3, meta := {} }]) ∧
    (rerank [({ id := 0, dist := 5, meta := {} } : SearchHit),
             { id := 1, dist := 3, meta := {} }] false false).Pairwise
      (fun x y => x.dist ≤ y.dist) :=
  rerank_zero_boosts_sorted_by_distance false false
    [{ id := 0, dist := 5, meta := {} }, { id := 1, dist := 3, meta := {} }] (by decide)

/-- C7 counterexample: over an index of five vectors, `search(query, k=1)`
returns five results — `index.search(qvec, max(k, 5))` widens the request and
nothing truncates back to `k`. -/
theorem search_no_truncation_cex :
    (search [(10, 5), (11, 3), (12, 9), (13, 1), (14, 7)] [] 1).length = 5 := by decide

/-- C7 (amended): `search(query, k)` returns at most `max(k, 5)` results (so
at most `k` only when `k ≥ 5`). -/
theorem search_length_le_max_k_five (db : List (Int × Int)) (md : List (Int × Meta))
    (k : Nat) : (search db md k).length ≤ max k 5 := by
  unfold search
  rw [List.length_map]
  refine le_trans (List.length_filter_le _ _) ?_
  unfold faissSearch
  rw [List.length_append, List.length_take, List.length_replicate]
  omega

/-- C6: `search_in_date_window` returns only hits whose stored meeting date
parses and lies within `[start, end]`, returns at most `k` of them, returns
`[]` (rather than failing) whenever no retrieved chunk's date falls in the
window, and orders its output by the recency-rerank key (descending). -/
theorem search_in_date_window_spec (db : List (Int × Int)) (md : List (Int × Meta))
    (start «end» : PyDateTime) (k : Nat) :
    (∀ h ∈ search_in_date_window db md start «end» k,
       ∃ d, parse_iso h.meta.meeting_date = some d ∧
         dtLeB start d = true ∧ dtLeB d «end» = true) ∧
    (search_in_date_window db md start «end» k).length ≤ k ∧
    (filter_by_date_range (search db md (max k 200)) start «end» = [] →
      search_in_date_window db md start «end» k = []) ∧
    (search_in_date_window db md start «end» k).Pairwise
      (fun x y => recKey true y ≤ recKey true x) := by
  by_cases hw : (filter_by_date_range (search db md (max k 200)) start «end»).isEmpty
  · have hz : search_in_date_window db md start «end» k = [] := by
      unfold search_in_date_window; rw [if_pos hw]
    refine ⟨?_, ?_, ?_, ?_⟩ <;> simp [hz]
  · have hz : search_in_date_window db md start «end» k =
        (rerank_for_recency (filter_by_date_range (search db md (max k 200)) start «end»)).take k := by
      unfold search_in_date_window; rw [if_neg hw]
    refine ⟨?_, ?_, ?_, ?_⟩
    · intro h hmem
      rw [hz] at hmem
      have h1 := List.take_subset _ _ hmem
      have h2 : h ∈ filter_by_date_range (search db md (max k 200)) start «end» :=
        (List.perm_insertionSort (hitDescRel (recKey true)) _).subset h1
      unfold filter_by_date_range at h2
      have h3 := (List.mem_filter.mp h2).2
      rcases hp : parse_iso h.meta.meeting_date with _ | d
      · simp [hp] at h3
      · simp only [hp, Bool.and_eq_true] at h3
        exact ⟨d, rfl, h3.1, h3.2⟩
    · rw [hz, List.length_take]
      exact min_le_left _ _
    · intro hfe
      unfold search_in_date_window
      rw [if_pos (by rw [hfe]; rfl)]
    · rw [hz]
      exact List.Pairwise.sublist (List.take_sublist _ _)
        (List.sorted_insertionSort (hitDescRel (recKey true)) _)

def c6Db : List (Int × Int) := [(0, 4), (1, 2), (2, 6)]

def c6Md : List (Int × Meta) :=
  [(0, { meeting_date := some "2025-08-15" }), (1, { meeting_date := some "2025-07-02" }), (2, {})]

def c6Start : PyDateTime := { year := 2025, month := 8, day := 1 }

def c6End : PyDateTime := { year := 2025, month := 8, day := 31, hour := 23, minute := 59, second := 59 }

/-- C6 witness: an August window over a three-chunk corpus with one August
chunk. -/
theorem search_in_date_window_spec_witness :
    (∃ d, parse_iso ({ meeting_date := some "2025-08-15" } : Meta).meeting_date = some d ∧
       dtLeB c6Start d = true ∧ dtLeB d c6End = true) ∧
    (search_in_date_window c6Db c6Md c6Start c6End 2).length ≤ 2 := by
  constructor
  · exact (search_in_date_window_spec c6Db c6Md c6Start c6End 2).1
      { id := 0, dist := 4, meta := { meeting_date := some "2025-08-15" } } (by decide)
  · exact (search_in_date_window_spec c6Db c6Md c6Start c6End 2).2.1

/-- The loop invariant of `embed_and_store.main`: the id sequences of the
vector index and the metadata map stay equal and strictly increasing below
`_next_id`. -/
theorem ingest_inv (emb : IngestChunk → Nat → Option (List Int)) (chunks : List IngestChunk) :
    ∀ st : IngestState,
      st.index.map Prod.fst = st.metadata.map Prod.fst →
      (∀ i ∈ st.index.map Prod.fst, i < st.next_id) →
      (st.index.map Prod.fst).Pairwise (· < ·) →
      ((chunks.foldl (processChunk emb) st).index.map Prod.fst =
          (chunks.foldl (processChunk emb) st).metadata.map Prod.fst) ∧
      (∀ i ∈ (chunks.foldl (processChunk emb) st).index.map Prod.fst,
          i < (chunks.foldl (processChunk emb) st).next_id) ∧
      ((chunks.foldl (processChunk emb) st).index.map Prod.fst).Pairwise (· < ·) := by
  induction chunks with
  | nil =>
    intro st h1 h2 h3
    exact ⟨h1, h2, h3⟩
  | cons c cs ih =>
    intro st h1 h2 h3
    simp only [List.foldl_cons]
    apply ih
    · unfold processChunk
      rcases hge : get_embedding (emb c) with _ | v <;> simp only []
      · exact h1
      · simp [List.map_append, h1]
    · unfold processChunk
      rcases hge : get_embedding (emb c) with _ | v <;> simp only []
      · exact h2
      · intro i hi
        simp only [List.map_append, List.mem_append, List.map_cons, List.map_nil,
          List.mem_singleton] at hi
        rcases hi with hi | hi
        · exact lt_trans (h2 i hi) (lt_add_one _)
        · rw [hi]
          exact lt_add_one _
    · unfold processChunk
      rcases hge : get_embedding (emb c) with _ | v <;> simp only []
      · exact h3
      · rw [List.map_append, List.pairwise_append]
        refine ⟨h3, List.pairwise_singleton _ _, ?_⟩
        intro a ha b hb
        simp only [List.map_cons, List.map_nil, List.mem_singleton] at hb
        rw [hb]
        exact h2 a ha

/-- C9: over any ingestion run, the vector index and the metadata map carry
exactly the same identifier sequence with no duplicates (every indexed id has
exactly one metadata record under the same id); a chunk whose embedding fails
changes neither container and ingestion continues; and the embedding fails
exactly after its four attempts (`range(4)`) all fail. -/
theorem ingest_index_metadata_sync (emb : IngestChunk → Nat → Option (List Int))
    (chunks : List IngestChunk) :
    ((runIngest emb chunks).index.map Prod.fst = (runIngest emb chunks).metadata.map Prod.fst) ∧
    ((runIngest emb chunks).index.map Prod.fst).Nodup ∧
    (∀ st c, get_embedding (emb c) = none → processChunk emb st c = st) ∧
    (∀ c, emb c 0 = none → emb c 1 = none → emb c 2 = none → emb c 3 = none →
      get_embedding (emb c) = none) := by
  have hinv := ingest_inv emb chunks {} (by rfl) (by simp) (by simp)
  refine ⟨hinv.1, ?_, ?_, ?_⟩
  · exact hinv.2.2.imp (fun h => ne_of_lt h)
  · intro st c hge
    unfold processChunk
    rw [hge]
  · intro c h0 h1 h2 h3
    unfold get_embedding
    rw [h0, h1, h2, h3]

def c9Chunk : IngestChunk :=
  { filename := "a.txt", path := "parsed_data/a.txt", chunk_id := 0, text := "hello",
    folder := "Meetings", meeting_date := some "2025-09-02" }

/-- C9 witness: an embedding provider that always fails leaves the state
untouched. -/
theorem ingest_index_metadata_sync_witness :
    (processChunk (fun _ _ => none) {} c9Chunk = {}) ∧
    (get_embedding ((fun (_ : IngestChunk) (_ : Nat) => (none : Option (List Int))) c9Chunk) = none) :=
  ⟨(ingest_index_metadata_sync (fun _ _ => none) []).2.2.1 {} c9Chunk rfl,
   (ingest_index_metadata_sync (fun _ _ => none) []).2.2.2 c9Chunk rfl rfl rfl rfl⟩
